import Mathlib

/-!
Verification of the polycas cassette-format codec (`polycas.py`).

Bytes are modelled as natural numbers (values < 256 on the wire); Python
byte strings become `List Nat`.  Operations that abort the process
(`exit(-1)`) or raise (`IndexError` on `c[10]`) return `Option` values,
with `none` standing for the aborted run.
-/

namespace Polycas

/-- Sync byte (`SYNC = b'\xe6'`). -/
def SYNC : Nat := 0xe6

/-- Start-of-header byte (`SOH = b'\x01'`). -/
def SOH : Nat := 0x01

/-- Section type byte for data records (`TYPE_DATA = b'\x00'`). -/
def TYPE_DATA : Nat := 0x00

/-- Section type byte for comment records (`TYPE_COMMENT = b'\x01'`). -/
def TYPE_COMMENT : Nat := 0x01

/-- Section type byte for end records (`TYPE_END = b'\x02'`). -/
def TYPE_END : Nat := 0x02

/-- Section type byte for exec records (`TYPE_EXEC = b'\x03'`). -/
def TYPE_EXEC : Nat := 0x03

/-- The per-section preamble: 16 sync characters followed by start-of-header
(`self.header = SYNC * 16 + SOH`). -/
def header : List Nat := List.replicate 16 SYNC ++ [SOH]

/-- `CassetteProgram.__createChecksum`: the empty string checksums to the
empty string; otherwise a single byte making the total sum vanish mod 256. -/
def createChecksum (s : List Nat) : List Nat :=
  if s = [] then []
  else [(0x100 - s.sum % 0x100) % 0x100]

/-- The header body `a` built inside `CassetteProgram.__createSection`:
name, address (little-endian), length byte, exec address (little-endian),
type byte. -/
def sectionBody (name : List Nat) (address execaddr : Nat) (dataLen : Nat)
    (sectiontype : Nat) : List Nat :=
  name ++ [address % 0x100, address / 0x100] ++ [dataLen % 0x100] ++
    [execaddr % 0x100, execaddr / 0x100] ++ [sectiontype]

/-- `CassetteProgram.__createSection`: for `TYPE_EXEC` the supplied address
goes to the exec field and the address field is forced to 0 (for every other
type both fields receive the same supplied address); the wire record is
header, header body, header checksum, payload, payload checksum. -/
def createSection (name : List Nat) (address : Nat) (data : List Nat)
    (sectiontype : Nat) : List Nat :=
  let execaddr := address
  let address := if sectiontype = TYPE_EXEC then 0 else address
  let a := sectionBody name address execaddr data.length sectiontype
  header ++ a ++ createChecksum a ++ data ++ createChecksum data

/-- `CassetteProgram.setName`: names longer than 8 bytes abort the program
(modelled by `none`); shorter names are right-padded with spaces to 8. -/
def setName (name : List Nat) : Option (List Nat) :=
  if name.length > 8 then none
  else some (name ++ List.replicate (8 - name.length) 0x20)

/-- `CassetteProgram.createDataMessage`. -/
def createDataMessage (name : List Nat) (address : Nat) (data : List Nat) :
    List Nat :=
  createSection name address data TYPE_DATA

/-- `CassetteProgram.createCommentMessage`. -/
def createCommentMessage (name : List Nat) (s : List Nat) : List Nat :=
  createSection name 0x0000 s TYPE_COMMENT

/-- `CassetteProgram.createEndMessage`. -/
def createEndMessage (name : List Nat) : List Nat :=
  createSection name 0x0000 [] TYPE_END

/-- `CassetteProgram.createExecMessage`. -/
def createExecMessage (name : List Nat) (execaddr : Nat) : List Nat :=
  createSection name execaddr [] TYPE_EXEC

/-- The 256-byte chunking performed by the `f.read(increment)` loop of
`CassetteProgram.loadFromBin`. -/
def chunks (l : List Nat) : List (List Nat) :=
  if h : l = [] then []
  else l.take 0x100 :: chunks (l.drop 0x100)
termination_by l.length
decreasing_by
  have hpos : 0 < l.length := List.length_pos.mpr h
  simp only [List.length_drop]
  omega

/-- The data-section loop of `CassetteProgram.loadFromBin`: one data section
per chunk, the address advancing by 0x100 each time. -/
def dataSections (name : List Nat) (address : Nat) :
    List (List Nat) → List (List Nat)
  | [] => []
  | d :: ds => createDataMessage name address d ::
      dataSections name (address + 0x100) ds

/-- Payload of the opening comment section (`b'\r\nLOADING START\r\n'`). -/
def LOADING_START : List Nat :=
  [0x0d, 0x0a, 0x4c, 0x4f, 0x41, 0x44, 0x49, 0x4e, 0x47, 0x20,
   0x53, 0x54, 0x41, 0x52, 0x54, 0x0d, 0x0a]

/-- Payload of the closing comment section (`b'LOADING END\r\n'`). -/
def LOADING_END : List Nat :=
  [0x4c, 0x4f, 0x41, 0x44, 0x49, 0x4e, 0x47, 0x20, 0x45, 0x4e, 0x44,
   0x0d, 0x0a]

/-- `CassetteProgram.loadFromBin`: set the name, emit the start comment, one
data section per 256-byte chunk of the input, the end comment, and finally an
exec section (when an exec address was supplied) or an end section. -/
def loadFromBin (binData : List Nat) (loadaddr : Nat) (execaddr : Option Nat)
    (name : List Nat) : Option (List (List Nat)) :=
  match setName name with
  | none => none
  | some nm =>
    some (createCommentMessage nm LOADING_START ::
      (dataSections nm loadaddr (chunks binData) ++
        [createCommentMessage nm LOADING_END] ++
        (match execaddr with
         | some e => [createExecMessage nm e]
         | none => [createEndMessage nm])))

/-- `CassetteProgram.save`: the wire image is the concatenation of the
sections in order. -/
def save (sections : List (List Nat)) : List Nat := sections.flatten

/-- The length-byte interpretation of `CassetteProgram.load`
(`length = 256 if s == 0 else s`). -/
def decodeLength (s : Nat) : Nat := if s = 0 then 256 else s

/-- One iteration of the `while True` loop of `CassetteProgram.load` on a
non-empty stream: consume the run of sync bytes and the byte after it, read a
16-byte header region, decode the length byte at index 10 (`none` models the
`IndexError` when fewer than 11 bytes were available), read that many payload
bytes, and return the captured section together with the remaining stream. -/
def loadStep (st : List Nat) : Option (List Nat × List Nat) :=
  let syncRun := st.takeWhile (fun b => b == SYNC)
  let rest1 := st.dropWhile (fun b => b == SYNC)
  let hdr := (rest1.drop 1).take 16
  if hdr.length < 11 then none
  else
    let len := decodeLength (hdr.getD 10 0)
    some (syncRun ++ rest1.take 1 ++ hdr ++ ((rest1.drop 1).drop 16).take len,
      ((rest1.drop 1).drop 16).drop len)

/-- Fuelled form of the `while True` loop of `CassetteProgram.load`; each
iteration consumes at least one byte, so fuel equal to the stream length is
always enough. -/
def loadFuel : Nat → List Nat → Option (List (List Nat))
  | _, [] => some []
  | 0, _ :: _ => none
  | fuel + 1, b :: rest =>
    match loadStep (b :: rest) with
    | none => none
    | some (sec, rem) => (loadFuel fuel rem).map (fun secs => sec :: secs)

/-- `CassetteProgram.load`: split a raw tape image back into sections. -/
def load (st : List Nat) : Option (List (List Nat)) := loadFuel st.length st

/-- Block indices written for one byte by the BYTE-format loop of
`CassetteProgram.saveAsWavs`: `buffers[0]` as start, `buffers[(c >> bit) & 1]`
for bits 0 to 7, then `buffers[1]` twice. -/
def byteWavBlocksForByte (c : Nat) : List Nat :=
  [0] ++ ((List.range 8).map fun bit => (c >>> bit) &&& 0x01) ++ [1, 1]

/-- Block indices written for one byte by the POLY-format loop of
`CassetteProgram.saveAsWavs`: `buffers[(c >> bit) & 1]` for bits 0 to 7. -/
def polyWavBlocksForByte (c : Nat) : List Nat :=
  (List.range 8).map fun bit => (c >>> bit) &&& 0x01

/-- The 10-sample positive half-wave `HIGH` of the POLY format. -/
def HIGH : List Int := List.replicate 10 30000

/-- The 10-sample negative half-wave `LOW` of the POLY format. -/
def LOW : List Int := List.replicate 10 (-30000)

/-- The POLY-format buffers `[HIGH+LOW, LOW+HIGH]`, indexed by bit value. -/
def polyBuffers (b : Nat) : List Int :=
  if b = 1 then LOW ++ HIGH else HIGH ++ LOW

/-- Block indices written by the whole POLY-format pass of
`CassetteProgram.saveAsWavs`: 1200 copies of `buffers[1]` up front, then for
each section 1200 copies of `buffers[0]` followed by the section's data
blocks. -/
def polyWavBlocks (sections : List (List Nat)) : List Nat :=
  List.replicate 1200 1 ++
    sections.flatMap (fun sec =>
      List.replicate 1200 0 ++ sec.flatMap polyWavBlocksForByte)

/-- The POLY-format sample stream: every block index becomes its 20-sample
buffer. -/
def polyWav (sections : List (List Nat)) : List Int :=
  (polyWavBlocks sections).flatMap polyBuffers

/-! ### Basic facts about the encoder -/

lemma createChecksum_singleton (s : List Nat) (h : s ≠ []) :
    createChecksum s = [(0x100 - s.sum % 0x100) % 0x100] := by
  simp [createChecksum, h]

lemma sectionBody_eq (nm : List Nat) (A ea L ty : Nat) :
    sectionBody nm A ea L ty =
      nm ++ [A % 0x100, A / 0x100, L % 0x100, ea % 0x100, ea / 0x100, ty] := by
  simp [sectionBody]

lemma sectionBody_length (nm : List Nat) (A ea L ty : Nat) (h8 : nm.length = 8) :
    (sectionBody nm A ea L ty).length = 14 := by
  simp [sectionBody, h8]

lemma sectionBody_ne_nil (nm : List Nat) (A ea L ty : Nat) :
    sectionBody nm A ea L ty ≠ [] := by
  simp [sectionBody]

lemma createSection_shape (nm : List Nat) (addr : Nat) (data : List Nat)
    (ty : Nat) :
    createSection nm addr data ty =
      (List.replicate 16 SYNC ++ SOH :: nm) ++
        ([(if ty = TYPE_EXEC then 0 else addr) % 0x100,
          (if ty = TYPE_EXEC then 0 else addr) / 0x100,
          data.length % 0x100, addr % 0x100, addr / 0x100, ty] ++
          (createChecksum (sectionBody nm (if ty = TYPE_EXEC then 0 else addr)
              addr data.length ty) ++
            data ++ createChecksum data)) := by
  simp [createSection, header, sectionBody, List.append_assoc]

lemma createSection_getElem?_field (nm : List Nat) (addr : Nat)
    (data : List Nat) (ty k : Nat) (h8 : nm.length = 8) (hk : k < 6) :
    (createSection nm addr data ty)[25 + k]? =
      [(if ty = TYPE_EXEC then 0 else addr) % 0x100,
       (if ty = TYPE_EXEC then 0 else addr) / 0x100,
       data.length % 0x100, addr % 0x100, addr / 0x100, ty][k]? := by
  have hlen : (List.replicate 16 SYNC ++ SOH :: nm).length = 25 := by
    simp [h8]
  rw [createSection_shape, List.getElem?_append_right (by omega),
    List.getElem?_append, hlen]
  have h25 : 25 + k - 25 = k := by omega
  rw [h25, if_pos (by simpa using hk)]

/-! ### Claim C5: the checksum law -/

/-- C5: for every non-empty byte sequence the checksum is a single byte that
cancels the byte sum modulo 256; for the empty sequence it is the empty
sequence. -/
theorem checksum_law (s : List Nat) :
    (s ≠ [] → (createChecksum s).length = 1 ∧
      (∀ c ∈ createChecksum s, c < 256) ∧
      (s.sum + (createChecksum s).sum) % 256 = 0)
    ∧ createChecksum ([] : List Nat) = [] := by
  constructor
  · intro h
    rw [createChecksum_singleton s h]
    refine ⟨rfl, ?_, ?_⟩
    · intro c hc
      simp only [List.mem_singleton] at hc
      omega
    · simp only [List.sum_cons, List.sum_nil]
      omega
  · simp [createChecksum]

/-- Witness for `checksum_law` at the concrete sequence `[3, 250]`. -/
theorem checksum_law_witness :
    ([3, 250] : List Nat) ≠ [] ∧
      (([3, 250] : List Nat).sum + (createChecksum [3, 250]).sum) % 256 = 0 :=
  ⟨by decide, ((checksum_law [3, 250]).1 (by decide)).2.2⟩

/-! ### Claim C3: the length-byte law -/

/-- C3: a 256-byte payload wire-encodes with length byte 0 (wire offset 27);
the parser maps wire length byte 0 to logical length 256; and for payload
lengths 1 to 255 the wire length byte is the length itself. -/
theorem length_byte_law (nm : List Nat) (addr ty : Nat) (h8 : nm.length = 8) :
    (∀ data : List Nat, data.length = 256 →
      (createSection nm addr data ty)[27]? = some 0)
    ∧ decodeLength 0 = 256
    ∧ (∀ data : List Nat, 1 ≤ data.length → data.length ≤ 255 →
      (createSection nm addr data ty)[27]? = some data.length)
    ∧ (∀ s : Nat, 1 ≤ s → s ≤ 255 → decodeLength s = s) := by
  refine ⟨?_, rfl, ?_, ?_⟩
  · intro data hd
    have h := createSection_getElem?_field nm addr data ty 2 h8 (by omega)
    rw [show (27 : Nat) = 25 + 2 from rfl, h]
    simp [hd]
  · intro data h1 h255
    have h := createSection_getElem?_field nm addr data ty 2 h8 (by omega)
    rw [show (27 : Nat) = 25 + 2 from rfl, h]
    simp [Nat.mod_eq_of_lt (by omega : data.length < 256)]
  · intro s h1 h255
    simp [decodeLength]
    omega

/-- Witness for `length_byte_law` at a concrete name and a 256-byte payload. -/
theorem length_byte_law_witness :
    (createSection (List.replicate 8 0x20) 0x1000 (List.replicate 256 7)
        TYPE_DATA)[27]? = some 0 :=
  (length_byte_law (List.replicate 8 0x20) 0x1000 TYPE_DATA (by simp)).1 _
    (List.length_replicate 256 7)

/-! ### Claim C9: name padding -/

/-- C9: a name of at most 8 bytes is stored right-padded with spaces to
exactly 8 bytes; a longer name makes `setName` fail, and `loadFromBin` (which
calls it before building any section) then produces no section at all. -/
theorem setName_padding :
    (∀ nm : List Nat, nm.length ≤ 8 →
      setName nm = some (nm ++ List.replicate (8 - nm.length) 0x20) ∧
      ∀ p, setName nm = some p → p.length = 8)
    ∧ setName [0x41, 0x42] =
        some [0x41, 0x42, 0x20, 0x20, 0x20, 0x20, 0x20, 0x20]
    ∧ (∀ nm : List Nat, 8 < nm.length →
      setName nm = none ∧
      ∀ binData loadaddr execaddr,
        loadFromBin binData loadaddr execaddr nm = none) := by
  refine ⟨?_, by decide, ?_⟩
  · intro nm hle
    have hif : ¬ nm.length > 8 := by omega
    constructor
    · simp [setName, hif]
    · intro p hp
      simp [setName, hif] at hp
      subst hp
      simp
      omega
  · intro nm hgt
    have hn : setName nm = none := by simp [setName]; omega
    exact ⟨hn, fun binData loadaddr execaddr => by
      simp [loadFromBin, hn]⟩

/-- Witness for `setName_padding`: a 1-byte name is padded, a 9-byte name is
rejected. -/
theorem setName_padding_witness :
    setName [0x41] = some ([0x41] ++ List.replicate (8 - 1) 0x20) ∧
      setName (List.replicate 9 0) = none :=
  ⟨(setName_padding.1 [0x41] (by decide)).1,
   (setName_padding.2.2 (List.replicate 9 0) (by simp)).1⟩

/-! ### Claim C10: the two address fields of non-exec sections -/

/-- C10: for data, comment and end sections the encoder writes the same
16-bit value, little-endian, into the address field (wire offsets 25 and 26)
and into the exec-address field (wire offsets 28 and 29). -/
theorem address_fields_equal (nm : List Nat) (addr : Nat) (data : List Nat)
    (ty : Nat) (h8 : nm.length = 8) (haddr : addr < 0x10000)
    (hty : ty = TYPE_DATA ∨ ty = TYPE_COMMENT ∨ ty = TYPE_END) :
    (createSection nm addr data ty)[25]? = some (addr % 0x100) ∧
    (createSection nm addr data ty)[26]? = some (addr / 0x100) ∧
    (createSection nm addr data ty)[28]? = some (addr % 0x100) ∧
    (createSection nm addr data ty)[29]? = some (addr / 0x100) := by
  have hne : ¬ ty = TYPE_EXEC := by
    rcases hty with h | h | h <;> subst h <;> decide
  have f0 := createSection_getElem?_field nm addr data ty 0 h8 (by omega)
  have f1 := createSection_getElem?_field nm addr data ty 1 h8 (by omega)
  have f3 := createSection_getElem?_field nm addr data ty 3 h8 (by omega)
  have f4 := createSection_getElem?_field nm addr data ty 4 h8 (by omega)
  refine ⟨?_, ?_, ?_, ?_⟩
  · rw [show (25 : Nat) = 25 + 0 from rfl, f0]; simp [hne]
  · rw [show (26 : Nat) = 25 + 1 from rfl, f1]; simp [hne]
  · rw [show (28 : Nat) = 25 + 3 from rfl, f3]; simp
  · rw [show (29 : Nat) = 25 + 4 from rfl, f4]; simp

/-- Witness for `address_fields_equal` at a concrete data section. -/
theorem address_fields_equal_witness :
    (createSection (List.replicate 8 0x20) 0x1234 [1] TYPE_DATA)[25]? =
        some (0x1234 % 0x100) ∧
      (createSection (List.replicate 8 0x20) 0x1234 [1] TYPE_DATA)[28]? =
        some (0x1234 % 0x100) :=
  ⟨(address_fields_equal (List.replicate 8 0x20) 0x1234 [1] TYPE_DATA
      (by simp) (by omega) (Or.inl rfl)).1,
   (address_fields_equal (List.replicate 8 0x20) 0x1234 [1] TYPE_DATA
      (by simp) (by omega) (Or.inl rfl)).2.2.1⟩

/-! ### Facts about block emission -/

lemma flatMap_length_const {α β : Type} (f : α → List β) (k : Nat)
    (h : ∀ a, (f a).length = k) (l : List α) :
    (l.flatMap f).length = l.length * k := by
  induction l with
  | nil => simp
  | cons a t ih => simp [h, ih, Nat.succ_mul]; omega

lemma flatMap_replicate {α β : Type} (f : α → List β) (n : Nat) (x : α) :
    (List.replicate n x).flatMap f = (List.replicate n (f x)).flatten := by
  induction n with
  | zero => simp
  | succ k ih => simp [List.replicate_succ, ih]

lemma flatMap_flatMap {α β γ : Type} (l : List α) (g : α → List β)
    (f : β → List γ) :
    (l.flatMap g).flatMap f = l.flatMap (fun a => (g a).flatMap f) := by
  induction l with
  | nil => simp
  | cons a t ih => simp [ih]

lemma flatten_replicate_length {α : Type} (n : Nat) (x : List α) :
    ((List.replicate n x).flatten).length = n * x.length := by
  induction n with
  | zero => simp
  | succ k ih => simp [List.replicate_succ, ih, Nat.succ_mul]; omega

lemma polyBuffers_length (b : Nat) : (polyBuffers b).length = 20 := by
  by_cases hb : b = 1 <;> simp [polyBuffers, hb, HIGH, LOW]

lemma shiftRight_and_one (c i : Nat) :
    (c >>> i) &&& 0x01 = if c.testBit i then 1 else 0 := by
  have h1 : (c >>> i) &&& 0x01 = (c >>> i) % 2 := Nat.and_one_is_mod _
  have h2 : ((c >>> i) &&& 0x01 = 1) ↔ c.testBit i := by
    simp [Nat.testBit]
  by_cases hb : c.testBit i
  · rw [if_pos hb]
    exact h2.mpr hb
  · rw [if_neg hb]
    have h3 : ¬ ((c >>> i) &&& 0x01 = 1) := fun h => hb (h2.mp h)
    omega

/-! ### Claim C7 (corrected): the POLY carrier preamble -/

/-- C7 counterexample: the carrier preamble emitted before any section data
is 24000 samples, which is half a second at 48000 Hz, nowhere near the five
seconds the claim states (approximately five seconds would need at least
4 × 48000 samples). -/
theorem poly_preamble_counterexample :
    (polyWav []).length = 24000 ∧ ¬ 4 * 48000 ≤ (polyWav []).length := by
  have h : (polyWav []).length = 24000 := by
    have := flatMap_length_const polyBuffers 20 polyBuffers_length
      (polyWavBlocks [])
    rw [polyWav, this]
    simp only [polyWavBlocks, List.flatMap_nil, List.append_nil,
      List.length_replicate]
  exact ⟨h, by omega⟩

/-- C7 amended: before any data the POLY modulator emits exactly 1200
repetitions of the 20-sample `LOW` then `HIGH` block — 24000 samples, half a
second at 48000 Hz, not five seconds — and before each section's bytes it
emits exactly 1200 repetitions of `HIGH` then `LOW`. -/
theorem poly_preamble_amended (sections : List (List Nat)) :
    polyWav sections =
      (List.replicate 1200 (LOW ++ HIGH)).flatten ++
        sections.flatMap (fun sec =>
          (List.replicate 1200 (HIGH ++ LOW)).flatten ++
            (sec.flatMap polyWavBlocksForByte).flatMap polyBuffers) ∧
    ((List.replicate 1200 (LOW ++ HIGH)).flatten : List Int).length * 2 =
      48000 ∧
    ((List.replicate 1200 (HIGH ++ LOW)).flatten : List Int).length * 2 =
      48000 := by
  have hb1 : polyBuffers 1 = LOW ++ HIGH := by simp [polyBuffers]
  have hb0 : polyBuffers 0 = HIGH ++ LOW := by simp [polyBuffers]
  refine ⟨?_, ?_, ?_⟩
  · rw [polyWav, polyWavBlocks]
    rw [List.flatMap_append, flatMap_replicate, flatMap_flatMap, hb1]
    have hfun : (fun sec : List Nat =>
        (List.replicate 1200 0 ++
          sec.flatMap polyWavBlocksForByte).flatMap polyBuffers) =
        (fun sec : List Nat =>
          (List.replicate 1200 (HIGH ++ LOW)).flatten ++
            (sec.flatMap polyWavBlocksForByte).flatMap polyBuffers) := by
      funext sec
      rw [List.flatMap_append, flatMap_replicate, hb0]
    rw [hfun]
  · rw [flatten_replicate_length]
    simp only [HIGH, LOW, List.length_append, List.length_replicate]
  · rw [flatten_replicate_length]
    simp only [HIGH, LOW, List.length_append, List.length_replicate]

/-! ### Claim C8: per-byte block structure of the two modulations -/

/-- C8: for every byte the BYTE modulation emits 11 blocks — a start block
with index 0, the eight bits least-significant-first, and two stop blocks
with index 1 — totalling 1760 samples when every tone block holds 160
samples; the POLY modulation emits the 8 bit blocks, least-significant-first,
totalling 160 samples of 20-sample buffers. -/
theorem modulator_block_counts (c : Nat) :
    ((byteWavBlocksForByte c).length = 11 ∧
     (byteWavBlocksForByte c).take 1 = [0] ∧
     (∀ i, i < 8 → (byteWavBlocksForByte c).getD (i + 1) 2 =
        if c.testBit i then 1 else 0) ∧
     (byteWavBlocksForByte c).drop 9 = [1, 1] ∧
     (∀ buffers : Nat → List Int, (∀ b, (buffers b).length = 160) →
       ((byteWavBlocksForByte c).flatMap buffers).length = 1760)) ∧
    ((polyWavBlocksForByte c).length = 8 ∧
     (∀ i, i < 8 → (polyWavBlocksForByte c).getD i 2 =
        if c.testBit i then 1 else 0) ∧
     (∀ b, (polyBuffers b).length = 20) ∧
     ((polyWavBlocksForByte c).flatMap polyBuffers).length = 160) := by
  have hmap : ∀ i, i < 8 →
      (((List.range 8).map fun bit => (c >>> bit) &&& 0x01).getD i 2) =
        if c.testBit i then 1 else 0 := by
    intro i hi
    rw [List.getD_eq_getElem?_getD, List.getElem?_map, List.getElem?_range hi,
      Option.map_some', Option.getD_some]
    exact shiftRight_and_one c i
  refine ⟨⟨?_, ?_, ?_, ?_, ?_⟩, ?_, ?_, polyBuffers_length, ?_⟩
  · simp [byteWavBlocksForByte]
  · simp [byteWavBlocksForByte]
  · intro i hi
    have hsz : (byteWavBlocksForByte c).getD (i + 1) 2 =
        (((List.range 8).map fun bit => (c >>> bit) &&& 0x01) ++ [1, 1]).getD
          i 2 := by
      simp [byteWavBlocksForByte]
    rw [hsz, List.getD_eq_getElem?_getD, List.getElem?_append,
      if_pos (by simpa using hi), ← List.getD_eq_getElem?_getD]
    exact hmap i hi
  · have hshape : byteWavBlocksForByte c =
        (0 :: ((List.range 8).map fun bit => (c >>> bit) &&& 0x01)) ++
          [1, 1] := by
      simp [byteWavBlocksForByte]
    have h9 : (0 :: ((List.range 8).map fun bit =>
        (c >>> bit) &&& 0x01)).length = 9 := by simp
    rw [hshape, List.drop_append_eq_append_drop,
      List.drop_eq_nil_of_le (le_of_eq h9), h9]
    simp
  · intro buffers hb
    rw [flatMap_length_const buffers 160 hb]
    simp [byteWavBlocksForByte]
  · simp [polyWavBlocksForByte]
  · intro i hi
    rw [polyWavBlocksForByte]
    exact hmap i hi
  · rw [flatMap_length_const polyBuffers 20 polyBuffers_length]
    simp [polyWavBlocksForByte]

/-- Witness for `modulator_block_counts` at byte 0xA5 with 160-sample
buffers. -/
theorem modulator_block_counts_witness :
    (byteWavBlocksForByte 0xa5).length = 11 ∧
    ((byteWavBlocksForByte 0xa5).flatMap
      (fun _ => List.replicate 160 (0 : Int))).length = 1760 ∧
    (byteWavBlocksForByte 0xa5).getD (3 + 1) 2 =
      (if (0xa5 : Nat).testBit 3 then 1 else 0) ∧
    ((polyWavBlocksForByte 0xa5).flatMap polyBuffers).length = 160 :=
  ⟨(modulator_block_counts 0xa5).1.1,
   (modulator_block_counts 0xa5).1.2.2.2.2 _
     (fun b => List.length_replicate 160 0),
   (modulator_block_counts 0xa5).1.2.2.1 3 (by omega),
   (modulator_block_counts 0xa5).2.2.2.2⟩

/-! ### Claim C6: chunking determinism -/

lemma chunks_nil : chunks [] = [] := by
  rw [chunks]
  simp

lemma chunks_cons (l : List Nat) (h : l ≠ []) :
    chunks l = l.take 0x100 :: chunks (l.drop 0x100) := by
  rw [chunks]
  simp [h]

lemma setName_eq_of_le (name : List Nat) (h : name.length ≤ 8) :
    setName name = some (name ++ List.replicate (8 - name.length) 0x20) := by
  have : ¬ name.length > 8 := by omega
  simp [setName, this]

lemma setName_result_length (name : List Nat) (h : name.length ≤ 8) :
    (name ++ List.replicate (8 - name.length) 0x20).length = 8 := by
  simp
  omega

/-- C6: `loadFromBin` on a 700-byte input at address 0x1000 with no exec
address produces exactly one start comment, three data sections with payload
lengths 256, 256 and 188 at addresses 0x1000, 0x1100 and 0x1200, one end
comment and one end section, in that order. -/
theorem loadFromBin_700_chunking (binData name : List Nat)
    (h700 : binData.length = 700) (hname : name.length ≤ 8) :
    ∃ nm, setName name = some nm ∧
      loadFromBin binData 0x1000 none name = some
        [createCommentMessage nm LOADING_START,
         createDataMessage nm 0x1000 (binData.take 0x100),
         createDataMessage nm 0x1100 ((binData.drop 0x100).take 0x100),
         createDataMessage nm 0x1200
           (((binData.drop 0x100).drop 0x100).take 0x100),
         createCommentMessage nm LOADING_END,
         createEndMessage nm] ∧
      (binData.take 0x100).length = 256 ∧
      ((binData.drop 0x100).take 0x100).length = 256 ∧
      (((binData.drop 0x100).drop 0x100).take 0x100).length = 188 := by
  have hch : chunks binData =
      [binData.take 0x100, (binData.drop 0x100).take 0x100,
       ((binData.drop 0x100).drop 0x100).take 0x100] := by
    have h1 : binData ≠ [] := by
      intro h
      rw [h] at h700
      simp at h700
    have hl1 : (binData.drop 0x100).length = 444 := by
      simp [List.length_drop, h700]
    have h2 : binData.drop 0x100 ≠ [] := by
      intro h
      rw [h] at hl1
      simp at hl1
    have hl2 : ((binData.drop 0x100).drop 0x100).length = 188 := by
      simp [List.length_drop, h700]
    have h3 : (binData.drop 0x100).drop 0x100 ≠ [] := by
      intro h
      rw [h] at hl2
      simp at hl2
    have hl3 : (((binData.drop 0x100).drop 0x100).drop 0x100).length = 0 := by
      simp [List.length_drop, h700]
    have h4 : ((binData.drop 0x100).drop 0x100).drop 0x100 = [] :=
      List.eq_nil_of_length_eq_zero hl3
    rw [chunks_cons _ h1, chunks_cons _ h2, chunks_cons _ h3, h4, chunks_nil]
  refine ⟨name ++ List.replicate (8 - name.length) 0x20,
    setName_eq_of_le name hname, ?_, ?_, ?_, ?_⟩
  · rw [loadFromBin, setName_eq_of_le name hname, hch]
    simp [dataSections]
  · simp [List.length_take, h700]
  · simp [List.length_take, List.length_drop, h700]
  · simp [List.length_take, List.length_drop, h700]

/-- Witness for `loadFromBin_700_chunking` on a concrete 700-byte input. -/
theorem loadFromBin_700_chunking_witness :
    (List.replicate 700 0xab : List Nat).length = 700 ∧
      (∃ nm, setName [0x50] = some nm ∧
        loadFromBin (List.replicate 700 0xab) 0x1000 none [0x50] = some
          [createCommentMessage nm LOADING_START,
           createDataMessage nm 0x1000 ((List.replicate 700 0xab).take 0x100),
           createDataMessage nm 0x1100
             (((List.replicate 700 0xab).drop 0x100).take 0x100),
           createDataMessage nm 0x1200
             ((((List.replicate 700 0xab).drop 0x100).drop 0x100).take 0x100),
           createCommentMessage nm LOADING_END,
           createEndMessage nm] ∧
        ((List.replicate 700 0xab).take 0x100).length = 256 ∧
        (((List.replicate 700 0xab).drop 0x100).take 0x100).length = 256 ∧
        ((((List.replicate 700 0xab).drop 0x100).drop 0x100).take
          0x100).length = 188) :=
  ⟨List.length_replicate 700 0xab,
   loadFromBin_700_chunking (List.replicate 700 0xab) [0x50]
     (List.length_replicate 700 0xab) (by simp)⟩

/-! ### The stream parser: generic facts -/

lemma dropWhile_length_le (p : Nat → Bool) :
    ∀ l : List Nat, (l.dropWhile p).length ≤ l.length := by
  intro l
  induction l with
  | nil => simp
  | cons a t ih =>
    rw [List.dropWhile_cons]
    by_cases hp : p a
    · rw [if_pos hp]
      simp only [List.length_cons]
      omega
    · rw [if_neg hp]

lemma takeWhile_sync (n : Nat) (l : List Nat) :
    (List.replicate n SYNC ++ SOH :: l).takeWhile (fun b => b == SYNC) =
      List.replicate n SYNC := by
  induction n with
  | zero => simp [List.takeWhile_cons, SOH, SYNC]
  | succ k ih => simp [List.replicate_succ, List.takeWhile_cons, ih]

lemma dropWhile_sync (n : Nat) (l : List Nat) :
    (List.replicate n SYNC ++ SOH :: l).dropWhile (fun b => b == SYNC) =
      SOH :: l := by
  induction n with
  | zero => simp [List.dropWhile_cons, SOH, SYNC]
  | succ k ih => simp [List.replicate_succ, List.dropWhile_cons, ih]

lemma getD_append_left {l₁ l₂ : List Nat} (k d : Nat) (h : k < l₁.length) :
    (l₁ ++ l₂).getD k d = l₁.getD k d := by
  rw [List.getD_eq_getElem?_getD, List.getElem?_append, if_pos h,
    ← List.getD_eq_getElem?_getD]

lemma getD_append_right {l₁ l₂ : List Nat} (k d : Nat) (h : l₁.length ≤ k) :
    (l₁ ++ l₂).getD k d = l₂.getD (k - l₁.length) d := by
  rw [List.getD_eq_getElem?_getD, List.getElem?_append_right h,
    ← List.getD_eq_getElem?_getD]

lemma getD_take (l : List Nat) (k n d : Nat) (h : k < n) :
    (l.take n).getD k d = l.getD k d := by
  rw [List.getD_eq_getElem?_getD, List.getElem?_take, if_pos h,
    ← List.getD_eq_getElem?_getD]

/-- Evaluation of one parser iteration on a stream that opens with exactly 16
sync bytes, a start-of-header byte, and at least 11 further bytes. -/
lemma loadStep_generic (Z : List Nat) (h11 : 11 ≤ Z.length) :
    loadStep (List.replicate 16 SYNC ++ SOH :: Z) =
      some (List.replicate 16 SYNC ++ SOH ::
          (Z.take 16 ++ (Z.drop 16).take (decodeLength (Z.getD 10 0))),
        (Z.drop 16).drop (decodeLength (Z.getD 10 0))) := by
  have hdrop1 : (SOH :: Z).drop 1 = Z := rfl
  have htake1 : (SOH :: Z).take 1 = [SOH] := rfl
  have hlen : (Z.take 16).length = min 16 Z.length := List.length_take 16 Z
  have hcond : ¬ (Z.take 16).length < 11 := by
    rw [hlen]
    omega
  have hgetD : (Z.take 16).getD 10 0 = Z.getD 10 0 :=
    getD_take Z 10 16 0 (by omega)
  rw [loadStep]
  simp only [takeWhile_sync, dropWhile_sync, hdrop1, htake1, hgetD]
  rw [if_neg hcond]
  simp [List.append_assoc]

lemma loadStep_rem_length (st sec rem : List Nat)
    (h : loadStep st = some (sec, rem)) : rem.length < st.length := by
  rw [loadStep] at h
  by_cases hc :
      (((st.dropWhile (fun b => b == SYNC)).drop 1).take 16).length < 11
  · rw [if_pos hc] at h
    exact absurd h (by simp)
  · rw [if_neg hc] at h
    have hrem : rem = (((st.dropWhile (fun b => b == SYNC)).drop 1).drop 16).drop
        (decodeLength ((((st.dropWhile (fun b => b == SYNC)).drop 1).take
          16).getD 10 0)) := by
      have := (Option.some.injEq _ _).mp h
      exact (congrArg Prod.snd this).symm
    have h16 : (((st.dropWhile (fun b => b == SYNC)).drop 1).take 16).length ≤
        ((st.dropWhile (fun b => b == SYNC)).drop 1).length := by
      rw [List.length_take]
      omega
    have hd1 : ((st.dropWhile (fun b => b == SYNC)).drop 1).length =
        (st.dropWhile (fun b => b == SYNC)).length - 1 := by
      rw [List.length_drop]
    have hdw : (st.dropWhile (fun b => b == SYNC)).length ≤ st.length :=
      dropWhile_length_le _ st
    have hpos : 1 ≤ (st.dropWhile (fun b => b == SYNC)).length := by omega
    have hle : rem.length ≤ ((st.dropWhile (fun b => b == SYNC)).drop
        1).length := by
      rw [hrem]
      simp only [List.length_drop]
      omega
    omega

lemma loadFuel_nil (f : Nat) : loadFuel f [] = some [] := by
  cases f <;> rfl

lemma loadFuel_eq_of_le :
    ∀ f₁ f₂ (st : List Nat), st.length ≤ f₁ → st.length ≤ f₂ →
      loadFuel f₁ st = loadFuel f₂ st := by
  intro f₁
  induction f₁ with
  | zero =>
    intro f₂ st h1 h2
    have hnil : st = [] := List.eq_nil_of_length_eq_zero (by omega)
    subst hnil
    rw [loadFuel_nil, loadFuel_nil]
  | succ k ih =>
    intro f₂ st h1 h2
    cases st with
    | nil => rw [loadFuel_nil, loadFuel_nil]
    | cons b rest =>
      have hf₂ : ∃ g, f₂ = g + 1 := by
        cases f₂ with
        | zero => simp at h2
        | succ g => exact ⟨g, rfl⟩
      obtain ⟨g, rfl⟩ := hf₂
      show loadFuel (k + 1) (b :: rest) = loadFuel (g + 1) (b :: rest)
      rw [loadFuel, loadFuel]
      cases hstep : loadStep (b :: rest) with
      | none => rfl
      | some pr =>
        obtain ⟨sec, rem⟩ := pr
        have hlt := loadStep_rem_length _ _ _ hstep
        simp only [List.length_cons] at hlt h1 h2
        have heq := ih g rem (by omega) (by omega)
        show Option.map (fun secs => sec :: secs) (loadFuel k rem) =
          Option.map (fun secs => sec :: secs) (loadFuel g rem)
        rw [heq]

lemma load_nil : load [] = some [] := rfl

lemma load_of_loadStep (st sec rem : List Nat) (hne : st ≠ [])
    (h : loadStep st = some (sec, rem)) :
    load st = (load rem).map (fun secs => sec :: secs) := by
  obtain ⟨b, rest, rfl⟩ := List.exists_cons_of_ne_nil hne
  have hlt := loadStep_rem_length _ _ _ h
  simp only [List.length_cons] at hlt
  rw [load, List.length_cons, loadFuel, h]
  show Option.map (fun secs => sec :: secs) (loadFuel rest.length rem) =
    Option.map (fun secs => sec :: secs) (load rem)
  rw [loadFuel_eq_of_le rest.length rem.length rem (by omega) le_rfl]
  rfl

lemma decodeLength_mod (L : Nat) (h1 : 1 ≤ L) (h2 : L ≤ 256) :
    decodeLength (L % 256) = L := by
  by_cases h : L = 256
  · subst h
    rfl
  · have hmod : L % 256 = L := Nat.mod_eq_of_lt (by omega)
    rw [hmod, decodeLength, if_neg (by omega)]

/-- One parser iteration on a record with a 14-byte header body `B`, header
checksum `cB`, non-empty payload and payload checksum `cD`: it consumes
exactly the record and leaves the rest of the stream. -/
lemma loadStep_record (B : List Nat) (cB : Nat) (data : List Nat) (cD : Nat)
    (rest : List Nat) (hBlen : B.length = 14)
    (hlb : B.getD 10 0 = data.length % 0x100)
    (hd1 : 1 ≤ data.length) (hle : data.length ≤ 256) :
    loadStep (List.replicate 16 SYNC ++ SOH ::
        (B ++ [cB] ++ data ++ [cD] ++ rest)) =
      some (List.replicate 16 SYNC ++ SOH :: (B ++ [cB] ++ data ++ [cD]),
        rest) := by
  have h15 : (B ++ [cB]).length = 15 := by simp [hBlen]
  have hZ : B ++ [cB] ++ data ++ [cD] ++ rest =
      (B ++ [cB]) ++ (data ++ ([cD] ++ rest)) := by
    simp [List.append_assoc]
  have hZlen : 11 ≤ (B ++ [cB] ++ data ++ [cD] ++ rest).length := by
    simp [hBlen]
    omega
  rw [loadStep_generic _ hZlen]
  have hgetD : (B ++ [cB] ++ data ++ [cD] ++ rest).getD 10 0 =
      data.length % 0x100 := by
    rw [getD_append_left 10 0 (by simp [hBlen] <;> omega),
      getD_append_left 10 0 (by simp [hBlen] <;> omega),
      getD_append_left 10 0 (by simp [hBlen] <;> omega),
      getD_append_left 10 0 (by omega), hlb]
  have htake16 : (B ++ [cB] ++ data ++ [cD] ++ rest).take 16 =
      (B ++ [cB]) ++ data.take 1 := by
    rw [hZ, List.take_append_eq_append_take, h15,
      List.take_of_length_le (by omega),
      List.take_append_eq_append_take]
    have h10 : (1 : Nat) - data.length = 0 := by omega
    norm_num [h10]
  have hdrop16 : (B ++ [cB] ++ data ++ [cD] ++ rest).drop 16 =
      data.drop 1 ++ ([cD] ++ rest) := by
    rw [hZ, List.drop_append_eq_append_drop, h15,
      List.drop_eq_nil_of_le (by omega),
      List.drop_append_eq_append_drop]
    have h10 : (1 : Nat) - data.length = 0 := by omega
    norm_num [h10]
  have hdlen : (data.drop 1).length = data.length - 1 := by
    simp [List.length_drop]
  have htakeLen : (data.drop 1 ++ ([cD] ++ rest)).take data.length =
      data.drop 1 ++ [cD] := by
    rw [List.take_append_eq_append_take,
      List.take_of_length_le (by omega), hdlen]
    have h1' : data.length - (data.length - 1) = 1 := by omega
    rw [h1', List.take_append_eq_append_take]
    norm_num
  have hdropLen : (data.drop 1 ++ ([cD] ++ rest)).drop data.length =
      rest := by
    rw [List.drop_append_eq_append_drop,
      List.drop_eq_nil_of_le (by omega), hdlen]
    have h1' : data.length - (data.length - 1) = 1 := by omega
    rw [h1', List.drop_append_eq_append_drop]
    norm_num
  rw [hgetD, decodeLength_mod data.length hd1 hle, htake16, hdrop16,
    htakeLen, hdropLen]
  have hsec : (B ++ [cB]) ++ data.take 1 ++ (data.drop 1 ++ [cD]) =
      B ++ [cB] ++ data ++ [cD] := by
    rw [List.append_assoc (B ++ [cB]), ← List.append_assoc (data.take 1),
      List.take_append_drop]
    simp [List.append_assoc]
  rw [hsec]

/-- One parser iteration on a record with an empty payload: the length byte
reads 0, is decoded as 256, and the parser swallows up to 257 bytes of the
following stream (one into its 16-byte header read, 256 as payload). -/
lemma loadStep_record_zero (B : List Nat) (cB : Nat) (rest : List Nat)
    (hBlen : B.length = 14) (hlb : B.getD 10 0 = 0) :
    loadStep (List.replicate 16 SYNC ++ SOH :: (B ++ [cB] ++ rest)) =
      some (List.replicate 16 SYNC ++ SOH :: (B ++ [cB] ++ rest.take 257),
        rest.drop 257) := by
  have h15 : (B ++ [cB]).length = 15 := by simp [hBlen]
  have hZ : B ++ [cB] ++ rest = (B ++ [cB]) ++ rest := by
    simp [List.append_assoc]
  have hZlen : 11 ≤ (B ++ [cB] ++ rest).length := by
    simp [hBlen]
    omega
  rw [loadStep_generic _ hZlen]
  have hgetD : (B ++ [cB] ++ rest).getD 10 0 = 0 := by
    rw [getD_append_left 10 0 (by simp [hBlen] <;> omega),
      getD_append_left 10 0 (by omega), hlb]
  have htake16 : (B ++ [cB] ++ rest).take 16 =
      (B ++ [cB]) ++ rest.take 1 := by
    rw [hZ, List.take_append_eq_append_take, h15,
      List.take_of_length_le (by omega)]
  have hdrop16 : (B ++ [cB] ++ rest).drop 16 = rest.drop 1 := by
    rw [hZ, List.drop_append_eq_append_drop, h15,
      List.drop_eq_nil_of_le (by omega)]
    norm_num
  have hdec : decodeLength 0 = 256 := rfl
  rw [hgetD, hdec, htake16, hdrop16]
  have h257t : rest.take 1 ++ (rest.drop 1).take 256 = rest.take 257 := by
    rw [show (257 : Nat) = 1 + 256 from rfl, List.take_add]
  have h257d : (rest.drop 1).drop 256 = rest.drop 257 := by
    rw [List.drop_drop]
  rw [List.append_assoc (B ++ [cB]), h257t, h257d]

lemma sectionBody_getD_10 (nm : List Nat) (A ea L ty : Nat)
    (h8 : nm.length = 8) :
    (sectionBody nm A ea L ty).getD 10 0 = L % 0x100 := by
  rw [sectionBody_eq, getD_append_right 10 0 (by omega), h8]
  rfl

lemma createSection_record_form (nm : List Nat) (addr : Nat) (data : List Nat)
    (ty : Nat) (hne : data ≠ []) :
    createSection nm addr data ty =
      List.replicate 16 SYNC ++ SOH ::
        (sectionBody nm (if ty = TYPE_EXEC then 0 else addr) addr
            data.length ty ++
          [(0x100 - (sectionBody nm (if ty = TYPE_EXEC then 0 else addr) addr
              data.length ty).sum % 0x100) % 0x100] ++
          data ++ [(0x100 - data.sum % 0x100) % 0x100]) := by
  rw [createSection]
  rw [createChecksum_singleton _ (sectionBody_ne_nil _ _ _ _ _),
    createChecksum_singleton data hne]
  simp [header, List.append_assoc]

lemma createSection_record_form_zero (nm : List Nat) (addr : Nat) (ty : Nat) :
    createSection nm addr [] ty =
      List.replicate 16 SYNC ++ SOH ::
        (sectionBody nm (if ty = TYPE_EXEC then 0 else addr) addr 0 ty ++
          [(0x100 - (sectionBody nm (if ty = TYPE_EXEC then 0 else addr) addr
              0 ty).sum % 0x100) % 0x100]) := by
  rw [createSection]
  rw [createChecksum_singleton _ (sectionBody_ne_nil _ _ _ _ _)]
  simp [header, createChecksum, List.append_assoc]

lemma createSection_ne_nil (nm : List Nat) (addr : Nat) (data : List Nat)
    (ty : Nat) : createSection nm addr data ty ≠ [] := by
  intro hcontra
  have hlen := congrArg List.length hcontra
  simp [createSection, header] at hlen

lemma loadStep_section_pos (nm : List Nat) (addr : Nat) (data : List Nat)
    (ty : Nat) (rest : List Nat) (h8 : nm.length = 8) (hne : data ≠ [])
    (hle : data.length ≤ 256) :
    loadStep (createSection nm addr data ty ++ rest) =
      some (createSection nm addr data ty, rest) := by
  have hd1 : 1 ≤ data.length := List.length_pos.mpr hne
  have hform := createSection_record_form nm addr data ty hne
  have hBlen := sectionBody_length nm (if ty = TYPE_EXEC then 0 else addr)
    addr data.length ty h8
  have hlb := sectionBody_getD_10 nm (if ty = TYPE_EXEC then 0 else addr)
    addr data.length ty h8
  generalize hBB : sectionBody nm (if ty = TYPE_EXEC then 0 else addr) addr
    data.length ty = BB at hform hBlen hlb
  have hstream : createSection nm addr data ty ++ rest =
      List.replicate 16 SYNC ++ SOH ::
        (BB ++ [(0x100 - BB.sum % 0x100) % 0x100] ++ data ++
          [(0x100 - data.sum % 0x100) % 0x100] ++ rest) := by
    rw [hform]
    simp [List.append_assoc]
  rw [hstream, loadStep_record BB _ data _ rest hBlen hlb hd1 hle, hform]

lemma loadStep_section_zero (nm : List Nat) (addr : Nat) (ty : Nat)
    (rest : List Nat) (h8 : nm.length = 8) :
    loadStep (createSection nm addr [] ty ++ rest) =
      some (createSection nm addr [] ty ++ rest.take 257, rest.drop 257) := by
  have hform := createSection_record_form_zero nm addr ty
  have hBlen := sectionBody_length nm (if ty = TYPE_EXEC then 0 else addr)
    addr 0 ty h8
  have hlb : (sectionBody nm (if ty = TYPE_EXEC then 0 else addr) addr
      0 ty).getD 10 0 = 0 :=
    sectionBody_getD_10 nm (if ty = TYPE_EXEC then 0 else addr) addr 0 ty h8
  generalize hBB : sectionBody nm (if ty = TYPE_EXEC then 0 else addr) addr
    0 ty = BB at hform hBlen hlb
  have hstream : createSection nm addr [] ty ++ rest =
      List.replicate 16 SYNC ++ SOH ::
        (BB ++ [(0x100 - BB.sum % 0x100) % 0x100] ++ rest) := by
    rw [hform]
    simp [List.append_assoc]
  rw [hstream, loadStep_record_zero BB _ rest hBlen hlb, hform]
  simp [List.append_assoc]

lemma load_section_pos_cons (nm : List Nat) (addr : Nat) (data : List Nat)
    (ty : Nat) (rest : List Nat) (h8 : nm.length = 8) (hne : data ≠ [])
    (hle : data.length ≤ 256) :
    load (createSection nm addr data ty ++ rest) =
      (load rest).map (fun secs => createSection nm addr data ty :: secs) := by
  refine load_of_loadStep _ _ _ ?_
    (loadStep_section_pos nm addr data ty rest h8 hne hle)
  intro hc
  rw [List.append_eq_nil] at hc
  exact createSection_ne_nil nm addr data ty hc.1

lemma load_section_zero_nil (nm : List Nat) (addr : Nat) (ty : Nat)
    (h8 : nm.length = 8) :
    load (createSection nm addr [] ty) = some [createSection nm addr [] ty] := by
  have hstep := loadStep_section_zero nm addr ty [] h8
  simp only [List.take_nil, List.drop_nil, List.append_nil] at hstep
  rw [load_of_loadStep _ _ _ (createSection_ne_nil nm addr [] ty) hstep,
    load_nil]
  rfl

/-! ### Round-trip of `loadFromBin`, `save` and `load` -/

/-- A wire record produced by the encoder with an 8-byte name and a payload
of 1 to 256 bytes. -/
def WireSection (S : List Nat) : Prop :=
  ∃ nm addr data ty, nm.length = 8 ∧ data ≠ [] ∧ data.length ≤ 256 ∧
    S = createSection nm addr data ty

lemma load_flatten_append (secs : List (List Nat))
    (h : ∀ S ∈ secs, WireSection S) (tail : List Nat) :
    load (secs.flatten ++ tail) = (load tail).map (fun r => secs ++ r) := by
  induction secs with
  | nil =>
    simp only [List.flatten_nil, List.nil_append]
    cases load tail <;> simp
  | cons S ss ih =>
    obtain ⟨nm, addr, data, ty, h8, hne, hle, rfl⟩ :=
      h S (List.mem_cons_self S ss)
    rw [List.flatten_cons, List.append_assoc,
      load_section_pos_cons nm addr data ty _ h8 hne hle,
      ih (fun T hT => h T (List.mem_cons_of_mem _ hT))]
    cases load tail <;> simp

lemma chunks_mem :
    ∀ (n : Nat) (l : List Nat), l.length ≤ n →
      ∀ d ∈ chunks l, d ≠ [] ∧ d.length ≤ 256 := by
  intro n
  induction n with
  | zero =>
    intro l hl d hd
    have hnil : l = [] := List.eq_nil_of_length_eq_zero (by omega)
    subst hnil
    rw [chunks_nil] at hd
    cases hd
  | succ k ih =>
    intro l hl d hd
    by_cases hnil : l = []
    · subst hnil
      rw [chunks_nil] at hd
      cases hd
    · rw [chunks_cons l hnil] at hd
      rcases List.mem_cons.mp hd with rfl | hmem
      · have hpos : 0 < l.length := List.length_pos.mpr hnil
        constructor
        · simp [List.take_eq_nil_iff, hnil]
        · simp [List.length_take]
      · have hpos : 0 < l.length := List.length_pos.mpr hnil
        exact ih (l.drop 0x100) (by simp [List.length_drop]; omega) d hmem

lemma dataSections_mem (nm : List Nat) :
    ∀ (ds : List (List Nat)) (a : Nat) (S : List Nat),
      S ∈ dataSections nm a ds → ∃ addr d, d ∈ ds ∧
        S = createSection nm addr d TYPE_DATA := by
  intro ds
  induction ds with
  | nil =>
    intro a S hS
    cases hS
  | cons d rest ih =>
    intro a S hS
    rcases List.mem_cons.mp hS with rfl | hmem
    · exact ⟨a, d, List.mem_cons_self d rest, rfl⟩
    · obtain ⟨addr, e, he, hSe⟩ := ih (a + 0x100) S hmem
      exact ⟨addr, e, List.mem_cons_of_mem _ he, hSe⟩

lemma roundtrip_sections (binData : List Nat) (loadaddr : Nat)
    (nm : List Nat) (h8 : nm.length = 8) (finaddr finty : Nat) :
    load (save (createCommentMessage nm LOADING_START ::
        (dataSections nm loadaddr (chunks binData) ++
          [createCommentMessage nm LOADING_END] ++
          [createSection nm finaddr [] finty]))) =
      some (createCommentMessage nm LOADING_START ::
        (dataSections nm loadaddr (chunks binData) ++
          [createCommentMessage nm LOADING_END] ++
          [createSection nm finaddr [] finty])) := by
  have hfront : ∀ S ∈ (createCommentMessage nm LOADING_START ::
      (dataSections nm loadaddr (chunks binData) ++
        [createCommentMessage nm LOADING_END])), WireSection S := by
    intro S hS
    rcases List.mem_cons.mp hS with rfl | hmem
    · exact ⟨nm, 0, LOADING_START, TYPE_COMMENT, h8, by decide, by decide,
        rfl⟩
    · rcases List.mem_append.mp hmem with hdata | hlast
      · obtain ⟨addr, d, hd, rfl⟩ :=
          dataSections_mem nm (chunks binData) loadaddr S hdata
        obtain ⟨hdne, hdle⟩ :=
          chunks_mem binData.length binData le_rfl d hd
        exact ⟨nm, addr, d, TYPE_DATA, h8, hdne, hdle, rfl⟩
      · rcases List.mem_singleton.mp hlast with rfl
        exact ⟨nm, 0, LOADING_END, TYPE_COMMENT, h8, by decide, by decide,
          rfl⟩
  have hassoc : (createCommentMessage nm LOADING_START ::
      (dataSections nm loadaddr (chunks binData) ++
        [createCommentMessage nm LOADING_END] ++
        [createSection nm finaddr [] finty])) =
      (createCommentMessage nm LOADING_START ::
        (dataSections nm loadaddr (chunks binData) ++
          [createCommentMessage nm LOADING_END])) ++
        [createSection nm finaddr [] finty] := by
    simp [List.append_assoc]
  rw [hassoc, save, List.flatten_append]
  have hflat : ([createSection nm finaddr [] finty] :
      List (List Nat)).flatten = createSection nm finaddr [] finty := by
    simp
  rw [hflat, load_flatten_append _ hfront _,
    load_section_zero_nil nm finaddr finty h8]
  rfl

/-- C1: for every raw binary input and every valid name and addresses,
parsing the concatenation of the encoded sections recovers exactly the
encoded sections, byte for byte and in order. -/
theorem roundtrip_loadFromBin_save_load (binData : List Nat) (loadaddr : Nat)
    (execaddr : Option Nat) (name : List Nat)
    (hname : name.length ≤ 8)
    (hbytes : ∀ b ∈ binData, b < 256)
    (haddrs : ∀ i < (chunks binData).length, loadaddr + 0x100 * i < 0x10000)
    (hexec : ∀ e, execaddr = some e → e < 0x10000) :
    ∃ sections, loadFromBin binData loadaddr execaddr name = some sections ∧
      load (save sections) = some sections := by
  have hsetName := setName_eq_of_le name hname
  have h8 := setName_result_length name hname
  generalize hnm : name ++ List.replicate (8 - name.length) 0x20 = nm
    at hsetName h8
  cases execaddr with
  | none =>
    refine ⟨createCommentMessage nm LOADING_START ::
        (dataSections nm loadaddr (chunks binData) ++
          [createCommentMessage nm LOADING_END] ++
          [createEndMessage nm]), ?_, ?_⟩
    · rw [loadFromBin, hsetName]
    · exact roundtrip_sections binData loadaddr nm h8 0 TYPE_END
  | some e =>
    refine ⟨createCommentMessage nm LOADING_START ::
        (dataSections nm loadaddr (chunks binData) ++
          [createCommentMessage nm LOADING_END] ++
          [createExecMessage nm e]), ?_, ?_⟩
    · rw [loadFromBin, hsetName]
    · exact roundtrip_sections binData loadaddr nm h8 e TYPE_EXEC

/-- Witness for `roundtrip_loadFromBin_save_load` on a concrete 3-byte
input. -/
theorem roundtrip_witness :
    ([0x41] : List Nat).length ≤ 8 ∧
      (∃ sections, loadFromBin [1, 2, 3] 0x1000 none [0x41] = some sections ∧
        load (save sections) = some sections) :=
  ⟨by decide,
   roundtrip_loadFromBin_save_load [1, 2, 3] 0x1000 none [0x41] (by decide)
     (by decide)
     (by
       have hd : List.drop 0x100 [1, 2, 3] = ([] : List Nat) := rfl
       have hc : (chunks [1, 2, 3]).length = 1 := by
         rw [chunks_cons _ (by decide), hd, chunks_nil]
         rfl
       intro i hi
       rw [hc] at hi
       omega)
     (by intro e he; cases he)⟩

/-! ### Claim C2 (corrected): truncated input -/

/-- A data section with declared payload length 5, truncated to 35 of its 38
wire bytes (only 2 of the 5 payload bytes remain). -/
def truncDemo : List Nat :=
  (createSection (List.replicate 8 0x20) 0 [1, 2, 3, 4, 5] TYPE_DATA).take 35

/-- C2 counterexample: on an input that ends mid-record the parser does not
fail at all — it returns successfully and the truncated bytes are retained as
a (partial) section. -/
theorem load_truncated_counterexample :
    load truncDemo = some [truncDemo] ∧
    truncDemo.length = 35 ∧
    (createSection (List.replicate 8 0x20) 0 [1, 2, 3, 4, 5]
      TYPE_DATA).length = 38 := by
  refine ⟨by decide, by decide, by decide⟩

/-- C2 amended: the parser has no truncation check; on any single encoded
record cut off anywhere after its length byte, `load` succeeds and keeps the
truncated byte range as a section. -/
theorem load_truncated_amended (nm : List Nat) (addr : Nat) (data : List Nat)
    (ty k : Nat) (h8 : nm.length = 8) (hne : data ≠ [])
    (hle : data.length ≤ 256) (hk28 : 28 ≤ k)
    (hklt : k < (createSection nm addr data ty).length) :
    load ((createSection nm addr data ty).take k) =
      some [(createSection nm addr data ty).take k] := by
  have hd1 : 1 ≤ data.length := List.length_pos.mpr hne
  have hform := createSection_record_form nm addr data ty hne
  have hBlen := sectionBody_length nm (if ty = TYPE_EXEC then 0 else addr)
    addr data.length ty h8
  have hlb := sectionBody_getD_10 nm (if ty = TYPE_EXEC then 0 else addr)
    addr data.length ty h8
  generalize hBB : sectionBody nm (if ty = TYPE_EXEC then 0 else addr) addr
    data.length ty = BB at hform hBlen hlb
  have hZlen : (BB ++ [(0x100 - BB.sum % 0x100) % 0x100] ++ data ++
      [(0x100 - data.sum % 0x100) % 0x100]).length = 16 + data.length := by
    simp [hBlen]
    omega
  have hSlen : (createSection nm addr data ty).length = 33 + data.length := by
    rw [hform]
    simp [hBlen]
    omega
  rw [hSlen] at hklt
  have htakeS : (createSection nm addr data ty).take k =
      List.replicate 16 SYNC ++ SOH ::
        (BB ++ [(0x100 - BB.sum % 0x100) % 0x100] ++ data ++
          [(0x100 - data.sum % 0x100) % 0x100]).take (k - 17) := by
    rw [hform, List.take_append_eq_append_take,
      List.take_of_length_le (by simp; omega)]
    have hk16 : k - (List.replicate 16 SYNC).length = (k - 17) + 1 := by
      simp
      omega
    rw [hk16, List.take_succ_cons]
  generalize hZ : BB ++ [(0x100 - BB.sum % 0x100) % 0x100] ++ data ++
    [(0x100 - data.sum % 0x100) % 0x100] = Z at hZlen htakeS hform
  have hWlen : (Z.take (k - 17)).length = k - 17 := by
    rw [List.length_take]
    omega
  have hstep : loadStep ((createSection nm addr data ty).take k) =
      some ((createSection nm addr data ty).take k, []) := by
    rw [htakeS, loadStep_generic (Z.take (k - 17)) (by omega)]
    have hgetD : (Z.take (k - 17)).getD 10 0 = data.length % 0x100 := by
      rw [getD_take Z 10 (k - 17) 0 (by omega), ← hZ,
        getD_append_left 10 0 (by simp [hBlen] <;> omega),
        getD_append_left 10 0 (by simp [hBlen] <;> omega),
        getD_append_left 10 0 (by omega), hlb]
    rw [hgetD, decodeLength_mod data.length hd1 hle]
    have hdrop16 : (Z.take (k - 17)).drop 16 = (Z.drop 16).take (k - 33) := by
      rw [List.drop_take]
      have : k - 17 - 16 = k - 33 := by omega
      rw [this]
    have hpay : ((Z.drop 16).take (k - 33)).take data.length =
        (Z.drop 16).take (k - 33) := by
      refine List.take_of_length_le ?_
      rw [List.length_take]
      omega
    have hrem : ((Z.drop 16).take (k - 33)).drop data.length = [] := by
      refine List.drop_eq_nil_of_le ?_
      rw [List.length_take]
      omega
    rw [hdrop16, hpay, hrem]
    have hsec : (Z.take (k - 17)).take 16 ++ (Z.drop 16).take (k - 33) =
        Z.take (k - 17) := by
      by_cases hk33 : k ≤ 33
      · have h0 : k - 33 = 0 := by omega
        rw [h0, List.take_zero, List.append_nil]
        refine List.take_of_length_le ?_
        rw [hWlen]
        omega
      · rw [List.take_take]
        have hmin : min 16 (k - 17) = 16 := by omega
        rw [hmin, ← List.take_add]
        have : 16 + (k - 33) = k - 17 := by omega
        rw [this]
    rw [hsec]
  have hne' : (createSection nm addr data ty).take k ≠ [] := by
    refine List.ne_nil_of_length_pos ?_
    rw [List.length_take]
    omega
  rw [load_of_loadStep _ _ _ hne' hstep, load_nil]
  rfl

/-- Witness for `load_truncated_amended` at a concrete truncated record. -/
theorem load_truncated_amended_witness :
    (List.replicate 8 0x20 : List Nat).length = 8 ∧
      load ((createSection (List.replicate 8 0x20) 0x1000 [9, 9, 9]
          TYPE_DATA).take 30) =
        some [(createSection (List.replicate 8 0x20) 0x1000 [9, 9, 9]
          TYPE_DATA).take 30] :=
  ⟨List.length_replicate 8 0x20,
   load_truncated_amended (List.replicate 8 0x20) 0x1000 [9, 9, 9] TYPE_DATA
     30 (List.length_replicate 8 0x20) (by decide) (by decide) (by omega)
     (by decide)⟩

/-! ### Claim C4 (corrected): zero-length records during parsing -/

/-- An end section (zero-length payload) with a blank 8-space name. -/
def endSectionDemo : List Nat :=
  createSection (List.replicate 8 0x20) 0 [] TYPE_END

/-- C4 counterexample: the parser does not look at the type byte of an end
section; it maps the wire length byte 0 to 256 and reads payload bytes, so
two consecutive 32-byte end sections are parsed as one 64-byte section, not
two. -/
theorem load_zero_length_counterexample :
    load (endSectionDemo ++ endSectionDemo) =
      some [endSectionDemo ++ endSectionDemo] ∧
    endSectionDemo.length = 32 ∧
    load (endSectionDemo ++ endSectionDemo) ≠
      some [endSectionDemo, endSectionDemo] := by
  refine ⟨by decide, by decide, by decide⟩

/-- C4 amended: on a record whose wire length byte is 0 the parser decodes
length 256 whatever the type byte says: it absorbs one following byte into
its 16-byte header read and up to 256 more as payload — up to 257 bytes
beyond the record.  A zero-payload record that ends the input is still
recovered exactly, because the reads return only the bytes available. -/
theorem load_zero_length_amended (nm : List Nat) (addr ty : Nat)
    (rest : List Nat) (h8 : nm.length = 8) :
    loadStep (createSection nm addr [] ty ++ rest) =
      some (createSection nm addr [] ty ++ rest.take 257, rest.drop 257) ∧
    load (createSection nm addr [] ty) =
      some [createSection nm addr [] ty] :=
  ⟨loadStep_section_zero nm addr ty rest h8,
   load_section_zero_nil nm addr ty h8⟩

/-- Witness for `load_zero_length_amended` at a concrete end section. -/
theorem load_zero_length_amended_witness :
    (List.replicate 8 0x20 : List Nat).length = 8 ∧
      (loadStep (createSection (List.replicate 8 0x20) 0 [] TYPE_END ++
          [7]) =
        some (createSection (List.replicate 8 0x20) 0 [] TYPE_END ++
          [7].take 257, [7].drop 257) ∧
      load (createSection (List.replicate 8 0x20) 0 [] TYPE_END) =
        some [createSection (List.replicate 8 0x20) 0 [] TYPE_END]) :=
  ⟨List.length_replicate 8 0x20,
   load_zero_length_amended (List.replicate 8 0x20) 0 TYPE_END [7]
     (List.length_replicate 8 0x20)⟩

end Polycas
